import Mathlib

/- Verification of the lead flotation performance model (Pb_flot_app.py).
   The model is embedded shallowly over the rationals: a lookup table is a
   list of control points, each pairing a key with a response mapping from
   attribute names to values; interpolate_lookup and calculate_performance
   are translated directly from the source. -/

namespace PbFlot

/- A response mapping: attribute name to rational value.  The source stores
   responses as dicts in which every control point of a table defines the
   same attribute set, so a total function is a faithful model. -/
abbrev Resp := String → ℚ

/- A lookup table: control points as key/response pairs, written in
   ascending key order as in the source. -/
abbrev Pts := List (ℚ × Resp)

/- Keys are distinct and sorted ascending (the stated table precondition):
   each key is strictly below the next. -/
def sortedKeys : Pts → Prop
  | p :: q :: rest => p.1 < q.1 ∧ sortedKeys (q :: rest)
  | _ => True

instance instDecSortedKeys : (pts : Pts) → Decidable (sortedKeys pts)
  | [] => isTrue trivial
  | [_] => isTrue trivial
  | p :: q :: rest =>
      haveI := instDecSortedKeys (q :: rest)
      inferInstanceAs (Decidable (p.1 < q.1 ∧ sortedKeys (q :: rest)))

/- Attribute-wise linear interpolation between two responses:
   result[param] = lower_val + weight * (upper_val - lower_val). -/
def lerpResp (lo hi : Resp) (w : ℚ) : Resp :=
  fun attr => lo attr + w * (hi attr - lo attr)

/- Scan of adjacent key pairs: the first i with keys[i] <= value <= keys[i+1]
   (the loop in interpolate_lookup). -/
def findBracket (v : ℚ) : Pts → Option ((ℚ × Resp) × (ℚ × Resp))
  | p :: q :: rest =>
      if p.1 ≤ v ∧ v ≤ q.1 then some (p, q) else findBracket v (q :: rest)
  | _ => none

/- Translation of interpolate_lookup: clamp at the edges, otherwise locate
   the bracketing pair and interpolate linearly.  The empty table and a
   failed scan are unreachable under the preconditions; they return the
   zero response where Python would raise. -/
def interpolate_lookup (v : ℚ) (pts : Pts) : Resp :=
  match pts with
  | [] => fun _ => 0
  | p :: rest =>
      if v ≤ p.1 then p.2
      else if (rest.getLastD p).1 ≤ v then (rest.getLastD p).2
      else
        match findBracket v (p :: rest) with
        | some (plo, phi) => lerpResp plo.2 phi.2 ((v - plo.1) / (phi.1 - plo.1))
        | none => fun _ => 0

/- Row constructors matching each table's attribute set. -/
def collectorRow (rec gr zna : ℚ) : Resp :=
  fun a => if a = "recovery" then rec else if a = "grade" then gr
    else if a = "zn_activation" then zna else 0

def airRow (rec gr znf : ℚ) : Resp :=
  fun a => if a = "recovery" then rec else if a = "grade" then gr
    else if a = "zn_flotation" then znf else 0

def smbsRow (rec gr fer znd : ℚ) : Resp :=
  fun a => if a = "recovery" then rec else if a = "grade" then gr
    else if a = "iron_rejection" then fer else if a = "zn_depression" then znd else 0

def phRow (rm gb zns : ℚ) : Resp :=
  fun a => if a = "recovery_multiplier" then rm else if a = "grade_bonus" then gb
    else if a = "zn_selectivity" then zns else 0

def luprosetRow (cr re : ℚ) : Resp :=
  fun a => if a = "carbon_rejection" then cr else if a = "recovery_effect" then re else 0

def COLLECTOR_LOOKUP : Pts :=
  [(0, collectorRow 10 45 0.1), (25, collectorRow 30 48 0.3),
   (50, collectorRow 46 55 0.6), (75, collectorRow 58 45 1.2),
   (100, collectorRow 70 40 2), (150, collectorRow 75 30 3.5)]

def AIR_RATE_LOOKUP : Pts :=
  [(0, airRow 10 35 0.05), (25, airRow 35 50 0.15), (50, airRow 45 52 0.25),
   (75, airRow 65 48 0.4), (100, airRow 75 30 0.6)]

def SMBS_LOOKUP : Pts :=
  [(0, smbsRow 100 45 0 0), (50, smbsRow 99 52 15 10), (100, smbsRow 98 58 35 25),
   (150, smbsRow 92 62 50 40), (200, smbsRow 88 65 65 55), (300, smbsRow 85 68 80 70)]

def PH_LOOKUP : Pts :=
  [(7, phRow 1 (-2) 1.2), (7.5, phRow 1 0 1), (8, phRow 1 2 0.9),
   (8.5, phRow 1 3.5 0.8), (9, phRow 1 4 0.7), (9.5, phRow 0.85 3 0.6),
   (10, phRow 0.7 1 0.5)]

def LUPROSET_LOOKUP : Pts :=
  [(0, luprosetRow 0 0), (50, luprosetRow 20 (-0.5)), (100, luprosetRow 35 (-1)),
   (200, luprosetRow 55 (-2)), (300, luprosetRow 70 (-3.5)), (500, luprosetRow 85 (-5))]

/- Translation of calculate_performance: interpolate the five tables, blend
   with the fixed weights, then clamp each output. -/
def calculate_performance (collector air_rate smbs ph luproset
    fe_feed_grade carbon_feed_grade zn_feed_grade : ℚ) : ℚ × ℚ × ℚ × ℚ × ℚ :=
  let collector_metrics := interpolate_lookup collector COLLECTOR_LOOKUP
  let air_metrics := interpolate_lookup air_rate AIR_RATE_LOOKUP
  let smbs_metrics := interpolate_lookup smbs SMBS_LOOKUP
  let ph_metrics := interpolate_lookup ph PH_LOOKUP
  let luproset_metrics := interpolate_lookup luproset LUPROSET_LOOKUP
  let base_recovery := collector_metrics "recovery" * 0.55 +
                       air_metrics "recovery" * 0.25 +
                       smbs_metrics "recovery" * 0.20 +
                       65.0 * 0.10
  let recovery0 := base_recovery * ph_metrics "recovery_multiplier"
  let recovery1 := recovery0 + luproset_metrics "recovery_effect"
  let base_grade := collector_metrics "grade" * 0.50 +
                    air_metrics "grade" * 0.25 +
                    smbs_metrics "grade" * 0.25 +
                    52.0 * 0.10
  let grade1 := base_grade + ph_metrics "grade_bonus"
  let iron_rejection_factor := smbs_metrics "iron_rejection" / 100.0
  let iron_grade1 := fe_feed_grade * (1.0 - iron_rejection_factor)
  let carbon_rejection_factor := luproset_metrics "carbon_rejection" / 100.0
  let carbon_grade1 := carbon_feed_grade * 4 * (1.0 - carbon_rejection_factor)
  let base_zn_flotation := (collector_metrics "zn_activation" +
                            air_metrics "zn_flotation") * zn_feed_grade
  let zn_with_ph := base_zn_flotation * ph_metrics "zn_selectivity"
  let zn_depression_factor := smbs_metrics "zn_depression" / 100.0
  let zinc_grade1 := zn_with_ph * (1.0 - zn_depression_factor)
  let recovery := max 0 (min 100 recovery1)
  let grade := max 35 (min 75 grade1)
  let iron_grade := max 0.1 (min fe_feed_grade iron_grade1)
  let carbon_grade := max 0.1 (min (carbon_feed_grade * 4) carbon_grade1)
  let zinc_grade := max 0.01 (min (zn_feed_grade * 2) zinc_grade1)
  (recovery, grade, iron_grade, carbon_grade, zinc_grade)

/- A two-point table used by the spec's interior-linearity example:
   0 maps to the response with attribute a equal to 0, and 100 maps to the
   response with attribute a equal to 10. -/
def exampleTable : Pts :=
  [(0, fun _ => 0), (100, fun a => if a = "a" then 10 else 0)]

/- Consecutive control points have non-increasing values at an attribute. -/
def attrAntitone (attr : String) : Pts → Prop
  | p :: q :: rest => q.2 attr ≤ p.2 attr ∧ attrAntitone attr (q :: rest)
  | _ => True

instance instDecAttrAntitone (attr : String) :
    (pts : Pts) → Decidable (attrAntitone attr pts)
  | [] => isTrue trivial
  | [_] => isTrue trivial
  | p :: q :: rest =>
      haveI := instDecAttrAntitone attr (q :: rest)
      inferInstanceAs (Decidable (q.2 attr ≤ p.2 attr ∧ attrAntitone attr (q :: rest)))

/- Consecutive control points have non-decreasing values at an attribute. -/
def attrMonotone (attr : String) : Pts → Prop
  | p :: q :: rest => p.2 attr ≤ q.2 attr ∧ attrMonotone attr (q :: rest)
  | _ => True

instance instDecAttrMonotone (attr : String) :
    (pts : Pts) → Decidable (attrMonotone attr pts)
  | [] => isTrue trivial
  | [_] => isTrue trivial
  | p :: q :: rest =>
      haveI := instDecAttrMonotone attr (q :: rest)
      inferInstanceAs (Decidable (p.2 attr ≤ q.2 attr ∧ attrMonotone attr (q :: rest)))

/- The recovery value computed by calculate_performance before the final clamp
   (the local variable recovery after the Luproset adjustment). -/
def recovery_pre (collector air_rate smbs ph luproset : ℚ) : ℚ :=
  (interpolate_lookup collector COLLECTOR_LOOKUP "recovery" * 0.55 +
   interpolate_lookup air_rate AIR_RATE_LOOKUP "recovery" * 0.25 +
   interpolate_lookup smbs SMBS_LOOKUP "recovery" * 0.20 + 65.0 * 0.10) *
  interpolate_lookup ph PH_LOOKUP "recovery_multiplier" +
  interpolate_lookup luproset LUPROSET_LOOKUP "recovery_effect"

/- The lead grade computed by calculate_performance before the final clamp
   (the local variable grade after the pH bonus). -/
def grade_pre (collector air_rate smbs ph : ℚ) : ℚ :=
  interpolate_lookup collector COLLECTOR_LOOKUP "grade" * 0.50 +
  interpolate_lookup air_rate AIR_RATE_LOOKUP "grade" * 0.25 +
  interpolate_lookup smbs SMBS_LOOKUP "grade" * 0.25 + 52.0 * 0.10 +
  interpolate_lookup ph PH_LOOKUP "grade_bonus"

/- Basic facts about sorted key lists. -/

theorem sortedKeys_tail {p : ℚ × Resp} {rest : Pts} (h : sortedKeys (p :: rest)) :
    sortedKeys rest := by
  cases rest with
  | nil => trivial
  | cons q rest => exact h.2

theorem sorted_lt_of_mem : ∀ {q : ℚ × Resp} {l : Pts}, sortedKeys (q :: l) →
    ∀ {e : ℚ × Resp}, e ∈ l → q.1 < e.1 := by
  intro q l
  induction l generalizing q with
  | nil => intro _ e he; cases he
  | cons c l ih =>
      intro hs e he
      rcases List.mem_cons.mp he with rfl | he
      · exact hs.1
      · exact lt_trans hs.1 (ih hs.2 he)

theorem sortedKeys_append_right : ∀ {l1 l2 : Pts}, sortedKeys (l1 ++ l2) → sortedKeys l2 := by
  intro l1
  induction l1 with
  | nil => intro l2 h; exact h
  | cons a l1 ih => intro l2 h; exact ih (sortedKeys_tail h)

theorem getLastD_key_ge : ∀ {l : Pts} {x : ℚ × Resp}, sortedKeys (x :: l) →
    x.1 ≤ (l.getLastD x).1 := by
  intro l
  induction l with
  | nil => intro x _; exact le_refl _
  | cons y l ih =>
      intro x hs
      rw [List.getLastD_cons]
      exact le_trans (le_of_lt hs.1) (ih hs.2)

theorem getLastD_key_gt {x y : ℚ × Resp} {l : Pts} (hs : sortedKeys (x :: y :: l)) :
    x.1 < ((y :: l).getLastD x).1 := by
  rw [List.getLastD_cons]
  exact lt_of_lt_of_le hs.1 (getLastD_key_ge hs.2)

/- Evaluation lemmas for interpolate_lookup. -/

theorem interp_low {p : ℚ × Resp} {rest : Pts} {v : ℚ} (h : v ≤ p.1) :
    interpolate_lookup v (p :: rest) = p.2 := by
  simp [interpolate_lookup, h]

theorem interp_single (v : ℚ) (p : ℚ × Resp) : interpolate_lookup v [p] = p.2 := by
  by_cases h : v ≤ p.1
  · exact interp_low h
  · push_neg at h
    simp [interpolate_lookup, not_le.mpr h, le_of_lt h]

theorem interp_high {p : ℚ × Resp} {rest : Pts} {v : ℚ} (hs : sortedKeys (p :: rest))
    (h : (rest.getLastD p).1 ≤ v) :
    interpolate_lookup v (p :: rest) = (rest.getLastD p).2 := by
  cases rest with
  | nil => exact interp_single v p
  | cons q rest =>
      have hpv : ¬ v ≤ p.1 := by
        have := getLastD_key_gt hs
        intro hc; exact absurd (lt_of_lt_of_le this (le_trans h hc)) (lt_irrefl _)
      simp [interpolate_lookup, hpv, h]
      intro hlt
      rw [List.getLastD_eq_getLast?] at h
      exact absurd hlt (not_lt.mpr h)

theorem interp_tail {p q : ℚ × Resp} {rest : Pts} {v : ℚ} (hpq : p.1 < q.1) (hv : q.1 < v) :
    interpolate_lookup v (p :: q :: rest) = interpolate_lookup v (q :: rest) := by
  have h1 : ¬ v ≤ p.1 := not_le.mpr (lt_trans hpq hv)
  have h2 : ¬ v ≤ q.1 := not_le.mpr hv
  have hfb : findBracket v (p :: q :: rest) = findBracket v (q :: rest) := by
    simp [findBracket, h2]
  simp only [interpolate_lookup, List.getLastD_cons, h1, h2, if_false, hfb]

theorem interp_first_seg {p q : ℚ × Resp} {rest : Pts} {v : ℚ} (hs : sortedKeys (p :: q :: rest))
    (h1 : p.1 < v) (h2 : v ≤ q.1) (attr : String) :
    interpolate_lookup v (p :: q :: rest) attr =
      p.2 attr + (v - p.1) / (q.1 - p.1) * (q.2 attr - p.2 attr) := by
  have hne : q.1 - p.1 ≠ 0 := ne_of_gt (sub_pos.mpr hs.1)
  have h1' : ¬ v ≤ p.1 := not_le.mpr h1
  have hfb : findBracket v (p :: q :: rest) = some (p, q) := by
    simp [findBracket, le_of_lt h1, h2]
  cases rest with
  | nil =>
      by_cases hhi : q.1 ≤ v
      · have hveq : v = q.1 := le_antisymm h2 hhi
        have hval : interpolate_lookup v [p, q] = q.2 := interp_high hs (by simpa using hhi)
        rw [hval, hveq, div_self hne]
        ring
      · have hlst : ¬ ((q :: ([] : Pts)).getLastD p).1 ≤ v := by
          simpa [List.getLastD_cons, List.getLastD] using hhi
        simp only [interpolate_lookup, h1', if_false, List.getLastD_cons] at hlst ⊢
        rw [if_neg hlst, hfb]
        simp only [lerpResp]
  | cons c rest' =>
      have hlst : ¬ ((q :: c :: rest').getLastD p).1 ≤ v := by
        rw [List.getLastD_cons]
        exact not_le.mpr (lt_of_le_of_lt h2 (getLastD_key_gt hs.2))
      simp only [interpolate_lookup, h1', if_false, List.getLastD_cons] at hlst ⊢
      rw [if_neg hlst, hfb]
      simp only [lerpResp]

theorem interp_bracket : ∀ (l1 : Pts) (plo phi : ℚ × Resp) (l2 : Pts) {v : ℚ},
    sortedKeys (l1 ++ plo :: phi :: l2) → plo.1 ≤ v → v ≤ phi.1 → ∀ attr,
    interpolate_lookup v (l1 ++ plo :: phi :: l2) attr =
      plo.2 attr + (v - plo.1) / (phi.1 - plo.1) * (phi.2 attr - plo.2 attr) := by
  intro l1
  induction l1 with
  | nil =>
      intro plo phi l2 v hs h1 h2 attr
      rw [List.nil_append] at hs ⊢
      by_cases hv : v ≤ plo.1
      · have hveq : v = plo.1 := le_antisymm hv h1
        rw [interp_low hv, hveq]
        simp
      · exact interp_first_seg hs (not_le.mp hv) h2 attr
  | cons a l1 ih =>
      intro plo phi l2 v hs h1 h2 attr
      rw [List.cons_append] at hs ⊢
      cases l1 with
      | nil =>
          rw [List.nil_append] at hs ⊢
          have ha_lt : a.1 < plo.1 := hs.1
          by_cases hv : v ≤ plo.1
          · have hveq : v = plo.1 := le_antisymm hv h1
            have hne : plo.1 - a.1 ≠ 0 := ne_of_gt (sub_pos.mpr ha_lt)
            rw [interp_first_seg hs (by rw [hveq]; exact ha_lt) hv attr, hveq, div_self hne]
            ring
          · push_neg at hv
            rw [interp_tail ha_lt hv]
            have := ih plo phi l2 (sortedKeys_tail hs) h1 h2 attr
            rw [List.nil_append] at this
            exact this
      | cons b l1 =>
          rw [List.cons_append] at hs ⊢
          have hb_plo : b.1 < plo.1 :=
            sorted_lt_of_mem hs.2 (List.mem_append_right _ (List.mem_cons_self _ _))
          have hbv : b.1 < v := lt_of_lt_of_le hb_plo h1
          rw [interp_tail hs.1 hbv]
          have := ih plo phi l2 (sortedKeys_tail hs) h1 h2 attr
          rw [List.cons_append] at this
          exact this

theorem findBracket_spec : ∀ {pts : Pts} {v : ℚ} {plo phi : ℚ × Resp}, sortedKeys pts →
    findBracket v pts = some (plo, phi) → plo.1 ≤ v ∧ v ≤ phi.1 ∧ plo.1 < phi.1 := by
  intro pts
  induction pts with
  | nil => intro v plo phi _ h; simp [findBracket] at h
  | cons p rest ih =>
      intro v plo phi hs h
      cases rest with
      | nil => simp [findBracket] at h
      | cons q rest' =>
          by_cases hc : p.1 ≤ v ∧ v ≤ q.1
          · rw [findBracket, if_pos hc] at h
            injection h with h
            injection h with h1 h2
            subst h1; subst h2
            exact ⟨hc.1, hc.2, hs.1⟩
          · rw [findBracket, if_neg hc] at h
            exact ih hs.2 h

theorem interp_bounds : ∀ {pts : Pts}, sortedKeys pts → pts ≠ [] →
    ∀ {attr : String} {lo hi : ℚ}, (∀ p ∈ pts, lo ≤ p.2 attr ∧ p.2 attr ≤ hi) →
    ∀ v, lo ≤ interpolate_lookup v pts attr ∧ interpolate_lookup v pts attr ≤ hi := by
  intro pts
  induction pts with
  | nil => intro _ h; exact absurd rfl h
  | cons p rest ih =>
      intro hs _ attr lo hi hb v
      cases rest with
      | nil => rw [interp_single]; exact hb p (List.mem_cons_self p [])
      | cons q rest' =>
          by_cases h1 : v ≤ p.1
          · rw [interp_low h1]; exact hb p (List.mem_cons_self _ _)
          · push_neg at h1
            by_cases h2 : v ≤ q.1
            · have hw := interp_bracket [] p q rest' hs (le_of_lt h1) h2 attr
              rw [List.nil_append] at hw
              rw [hw]
              have hd : (0:ℚ) < q.1 - p.1 := sub_pos.mpr hs.1
              have hw0 : 0 ≤ (v - p.1) / (q.1 - p.1) :=
                div_nonneg (by linarith) (le_of_lt hd)
              have hw1 : (v - p.1) / (q.1 - p.1) ≤ 1 :=
                (div_le_one hd).mpr (by linarith)
              have hp := hb p (List.mem_cons_self _ _)
              have hq := hb q (List.mem_cons_of_mem _ (List.mem_cons_self _ _))
              constructor
              · nlinarith [mul_nonneg hw0 (sub_nonneg.mpr hq.1),
                  mul_nonneg (sub_nonneg.mpr hw1) (sub_nonneg.mpr hp.1)]
              · nlinarith [mul_nonneg hw0 (sub_nonneg.mpr hq.2),
                  mul_nonneg (sub_nonneg.mpr hw1) (sub_nonneg.mpr hp.2)]
            · push_neg at h2
              rw [interp_tail hs.1 h2]
              exact ih hs.2 (List.cons_ne_nil _ _)
                (fun e he => hb e (List.mem_cons_of_mem _ he)) v

theorem interp_le_head {attr : String} : ∀ {p : ℚ × Resp} {rest : Pts},
    sortedKeys (p :: rest) → attrAntitone attr (p :: rest) →
    ∀ v, interpolate_lookup v (p :: rest) attr ≤ p.2 attr := by
  intro p rest
  induction rest generalizing p with
  | nil => intro _ _ v; rw [interp_single]
  | cons q rest' ih =>
      intro hs ha v
      by_cases h1 : v ≤ p.1
      · rw [interp_low h1]
      · push_neg at h1
        by_cases h2 : v ≤ q.1
        · have hw := interp_bracket [] p q rest' hs (le_of_lt h1) h2 attr
          rw [List.nil_append] at hw
          rw [hw]
          have hd : (0:ℚ) < q.1 - p.1 := sub_pos.mpr hs.1
          have hw0 : 0 ≤ (v - p.1) / (q.1 - p.1) :=
            div_nonneg (by linarith) (le_of_lt hd)
          nlinarith [mul_nonneg hw0 (sub_nonneg.mpr ha.1)]
        · push_neg at h2
          rw [interp_tail hs.1 h2]
          exact le_trans (ih hs.2 ha.2 v) ha.1

theorem interp_head_le {attr : String} : ∀ {p : ℚ × Resp} {rest : Pts},
    sortedKeys (p :: rest) → attrMonotone attr (p :: rest) →
    ∀ v, p.2 attr ≤ interpolate_lookup v (p :: rest) attr := by
  intro p rest
  induction rest generalizing p with
  | nil => intro _ _ v; rw [interp_single]
  | cons q rest' ih =>
      intro hs ha v
      by_cases h1 : v ≤ p.1
      · rw [interp_low h1]
      · push_neg at h1
        by_cases h2 : v ≤ q.1
        · have hw := interp_bracket [] p q rest' hs (le_of_lt h1) h2 attr
          rw [List.nil_append] at hw
          rw [hw]
          have hd : (0:ℚ) < q.1 - p.1 := sub_pos.mpr hs.1
          have hw0 : 0 ≤ (v - p.1) / (q.1 - p.1) :=
            div_nonneg (by linarith) (le_of_lt hd)
          nlinarith [mul_nonneg hw0 (sub_nonneg.mpr ha.1)]
        · push_neg at h2
          rw [interp_tail hs.1 h2]
          exact le_trans ha.1 (ih hs.2 ha.2 v)

theorem interp_antitone {attr : String} : ∀ {pts : Pts}, sortedKeys pts →
    attrAntitone attr pts → ∀ {v1 v2 : ℚ}, v1 ≤ v2 →
    interpolate_lookup v2 pts attr ≤ interpolate_lookup v1 pts attr := by
  intro pts
  induction pts with
  | nil => intro _ _ v1 v2 _; exact le_refl _
  | cons p rest ih =>
      intro hs ha v1 v2 h12
      cases rest with
      | nil => rw [interp_single, interp_single]
      | cons q rest' =>
          by_cases hv2 : v2 ≤ p.1
          · rw [interp_low hv2, interp_low (le_trans h12 hv2)]
          · push_neg at hv2
            by_cases hv1q : q.1 < v1
            · rw [interp_tail hs.1 hv1q, interp_tail hs.1 (lt_of_lt_of_le hv1q h12)]
              exact ih hs.2 ha.2 h12
            · push_neg at hv1q
              by_cases hv1 : v1 ≤ p.1
              · rw [interp_low hv1]
                exact interp_le_head hs ha v2
              · push_neg at hv1
                have hd : (0:ℚ) < q.1 - p.1 := sub_pos.mpr hs.1
                have hw1 := interp_bracket [] p q rest' hs (le_of_lt hv1) hv1q attr
                rw [List.nil_append] at hw1
                by_cases hv2q : v2 ≤ q.1
                · have hw2 := interp_bracket [] p q rest' hs (le_of_lt hv2) hv2q attr
                  rw [List.nil_append] at hw2
                  rw [hw1, hw2]
                  have hdiv : (v2 - p.1) / (q.1 - p.1) - (v1 - p.1) / (q.1 - p.1) =
                      (v2 - v1) / (q.1 - p.1) := by ring
                  have hmono : (v1 - p.1) / (q.1 - p.1) ≤ (v2 - p.1) / (q.1 - p.1) := by
                    have := div_nonneg (sub_nonneg.mpr h12) (le_of_lt hd)
                    linarith [hdiv ▸ this]
                  nlinarith [mul_nonneg (sub_nonneg.mpr hmono) (sub_nonneg.mpr ha.1)]
                · push_neg at hv2q
                  rw [hw1, interp_tail hs.1 hv2q]
                  have hle : interpolate_lookup v2 (q :: rest') attr ≤ q.2 attr :=
                    interp_le_head hs.2 ha.2 v2
                  have hwle : (v1 - p.1) / (q.1 - p.1) ≤ 1 := (div_le_one hd).mpr (by linarith)
                  nlinarith [mul_nonneg (sub_nonneg.mpr hwle) (sub_nonneg.mpr ha.1)]

theorem interp_monotone {attr : String} : ∀ {pts : Pts}, sortedKeys pts →
    attrMonotone attr pts → ∀ {v1 v2 : ℚ}, v1 ≤ v2 →
    interpolate_lookup v1 pts attr ≤ interpolate_lookup v2 pts attr := by
  intro pts
  induction pts with
  | nil => intro _ _ v1 v2 _; exact le_refl _
  | cons p rest ih =>
      intro hs ha v1 v2 h12
      cases rest with
      | nil => rw [interp_single, interp_single]
      | cons q rest' =>
          by_cases hv2 : v2 ≤ p.1
          · rw [interp_low hv2, interp_low (le_trans h12 hv2)]
          · push_neg at hv2
            by_cases hv1q : q.1 < v1
            · rw [interp_tail hs.1 hv1q, interp_tail hs.1 (lt_of_lt_of_le hv1q h12)]
              exact ih hs.2 ha.2 h12
            · push_neg at hv1q
              by_cases hv1 : v1 ≤ p.1
              · rw [interp_low hv1]
                exact interp_head_le hs ha v2
              · push_neg at hv1
                have hd : (0:ℚ) < q.1 - p.1 := sub_pos.mpr hs.1
                have hw1 := interp_bracket [] p q rest' hs (le_of_lt hv1) hv1q attr
                rw [List.nil_append] at hw1
                by_cases hv2q : v2 ≤ q.1
                · have hw2 := interp_bracket [] p q rest' hs (le_of_lt hv2) hv2q attr
                  rw [List.nil_append] at hw2
                  rw [hw1, hw2]
                  have hdiv : (v2 - p.1) / (q.1 - p.1) - (v1 - p.1) / (q.1 - p.1) =
                      (v2 - v1) / (q.1 - p.1) := by ring
                  have hmono : (v1 - p.1) / (q.1 - p.1) ≤ (v2 - p.1) / (q.1 - p.1) := by
                    have := div_nonneg (sub_nonneg.mpr h12) (le_of_lt hd)
                    linarith [hdiv ▸ this]
                  nlinarith [mul_nonneg (sub_nonneg.mpr hmono) (sub_nonneg.mpr ha.1)]
                · push_neg at hv2q
                  rw [hw1, interp_tail hs.1 hv2q]
                  have hle : q.2 attr ≤ interpolate_lookup v2 (q :: rest') attr :=
                    interp_head_le hs.2 ha.2 v2
                  have hwle : (v1 - p.1) / (q.1 - p.1) ≤ 1 := (div_le_one hd).mpr (by linarith)
                  nlinarith [mul_nonneg (sub_nonneg.mpr hwle) (sub_nonneg.mpr ha.1)]

theorem bracket_exists : ∀ (rest : Pts) (p : ℚ × Resp), sortedKeys (p :: rest) →
    ∀ {x : ℚ}, p.1 < x → x < (rest.getLastD p).1 →
    ∃ l1 plo phi l2, p :: rest = l1 ++ plo :: phi :: l2 ∧ plo.1 ≤ x ∧ x ≤ phi.1 := by
  intro rest
  induction rest with
  | nil =>
      intro p _ x hlo hhi
      exact absurd (lt_trans hlo hhi) (lt_irrefl _)
  | cons q rest' ih =>
      intro p hs x hlo hhi
      by_cases h2 : x ≤ q.1
      · exact ⟨[], p, q, rest', rfl, le_of_lt hlo, h2⟩
      · push_neg at h2
        rw [List.getLastD_cons] at hhi
        obtain ⟨l1, plo, phi, l2, heq, hx1, hx2⟩ := ih q hs.2 h2 hhi
        exact ⟨p :: l1, plo, phi, l2, by rw [List.cons_append, heq], hx1, hx2⟩

theorem interp_at_key : ∀ {pts : Pts}, sortedKeys pts → ∀ {k : ℚ} {r : Resp},
    (k, r) ∈ pts → ∀ attr, interpolate_lookup k pts attr = r attr := by
  intro pts
  induction pts with
  | nil => intro _ k r hmem; cases hmem
  | cons p rest ih =>
      intro hs k r hmem attr
      rcases List.mem_cons.mp hmem with heq | hmem
      · have hk : k = p.1 := by rw [← heq]
        have hr : r = p.2 := by rw [← heq]
        rw [interp_low (le_of_eq hk), hr]
      · cases rest with
        | nil => cases hmem
        | cons q rest' =>
            rcases List.mem_cons.mp hmem with heq | hmem'
            · have hk : k = q.1 := by rw [← heq]
              have hr : r = q.2 := by rw [← heq]
              have hw := interp_bracket [] p q rest' hs (hk ▸ le_of_lt hs.1)
                (le_of_eq hk) attr
              rw [List.nil_append] at hw
              have hne : q.1 - p.1 ≠ 0 := ne_of_gt (sub_pos.mpr hs.1)
              rw [hw, hk, div_self hne, hr]
              ring
            · have hqk : q.1 < k := sorted_lt_of_mem hs.2 hmem'
              rw [interp_tail hs.1 hqk]
              exact ih hs.2 hmem attr

/- The five outputs of calculate_performance, written out with the clamps
   and the interpolated attribute values explicit. -/
theorem calc_perf_unfold (collector air_rate smbs ph luproset
    fe_feed_grade carbon_feed_grade zn_feed_grade : ℚ) :
    calculate_performance collector air_rate smbs ph luproset
      fe_feed_grade carbon_feed_grade zn_feed_grade =
    (max 0 (min 100 ((interpolate_lookup collector COLLECTOR_LOOKUP "recovery" * 0.55 +
        interpolate_lookup air_rate AIR_RATE_LOOKUP "recovery" * 0.25 +
        interpolate_lookup smbs SMBS_LOOKUP "recovery" * 0.20 + 65.0 * 0.10) *
        interpolate_lookup ph PH_LOOKUP "recovery_multiplier" +
        interpolate_lookup luproset LUPROSET_LOOKUP "recovery_effect")),
     max 35 (min 75 (interpolate_lookup collector COLLECTOR_LOOKUP "grade" * 0.50 +
        interpolate_lookup air_rate AIR_RATE_LOOKUP "grade" * 0.25 +
        interpolate_lookup smbs SMBS_LOOKUP "grade" * 0.25 + 52.0 * 0.10 +
        interpolate_lookup ph PH_LOOKUP "grade_bonus")),
     max 0.1 (min fe_feed_grade
       (fe_feed_grade * (1.0 - interpolate_lookup smbs SMBS_LOOKUP "iron_rejection" / 100.0))),
     max 0.1 (min (carbon_feed_grade * 4)
       (carbon_feed_grade * 4 *
         (1.0 - interpolate_lookup luproset LUPROSET_LOOKUP "carbon_rejection" / 100.0))),
     max 0.01 (min (zn_feed_grade * 2)
       ((interpolate_lookup collector COLLECTOR_LOOKUP "zn_activation" +
         interpolate_lookup air_rate AIR_RATE_LOOKUP "zn_flotation") * zn_feed_grade *
         interpolate_lookup ph PH_LOOKUP "zn_selectivity" *
         (1.0 - interpolate_lookup smbs SMBS_LOOKUP "zn_depression" / 100.0)))) := rfl

/-- C1: for every lookup table with at least one control point and sorted distinct
keys, interpolate_lookup returns the response at the minimum key exactly whenever
the input is at most the minimum key, the response at the maximum key exactly
whenever the input is at least the maximum key, and for a one-point table that
point's response for every input. -/
theorem claim_C1 (p : ℚ × Resp) (rest : Pts) (hs : sortedKeys (p :: rest)) (v : ℚ) :
    (v ≤ p.1 → interpolate_lookup v (p :: rest) = p.2) ∧
    ((rest.getLastD p).1 ≤ v → interpolate_lookup v (p :: rest) = (rest.getLastD p).2) ∧
    (rest = [] → interpolate_lookup v (p :: rest) = p.2) :=
  ⟨fun h => interp_low h, fun h => interp_high hs h,
   fun h => by subst h; exact interp_single v p⟩

theorem claim_C1_witness :
    sortedKeys SMBS_LOOKUP ∧
    interpolate_lookup (-10) SMBS_LOOKUP = smbsRow 100 45 0 0 ∧
    interpolate_lookup 400 SMBS_LOOKUP = smbsRow 85 68 80 70 :=
  ⟨by decide,
   (claim_C1 (0, smbsRow 100 45 0 0)
      [(50, smbsRow 99 52 15 10), (100, smbsRow 98 58 35 25), (150, smbsRow 92 62 50 40),
       (200, smbsRow 88 65 65 55), (300, smbsRow 85 68 80 70)] (by decide) (-10)).1
      (by decide),
   (claim_C1 (0, smbsRow 100 45 0 0)
      [(50, smbsRow 99 52 15 10), (100, smbsRow 98 58 35 25), (150, smbsRow 92 62 50 40),
       (200, smbsRow 88 65 65 55), (300, smbsRow 85 68 80 70)] (by decide) 400).2.1
      (by decide)⟩

/-- C2: for every input strictly between the minimum and maximum keys there is a
bracketing adjacent pair with lower key at most the input and the input at most
the upper key, and for every such bracketing pair the result is, attribute by
attribute, lower plus weight times (upper minus lower) with
weight = (x - k_lo)/(k_hi - k_lo); on the two-point example table with 0 mapping
a to 0 and 100 mapping a to 10 this yields 5 at input 50 and 5/2 at input 25. -/
theorem claim_C2 (p : ℚ × Resp) (rest : Pts) (hs : sortedKeys (p :: rest)) (x : ℚ)
    (hlo : p.1 < x) (hhi : x < (rest.getLastD p).1) :
    (∃ l1 plo phi l2, p :: rest = l1 ++ plo :: phi :: l2 ∧ plo.1 ≤ x ∧ x ≤ phi.1) ∧
    (∀ (l1 : Pts) (plo phi : ℚ × Resp) (l2 : Pts), p :: rest = l1 ++ plo :: phi :: l2 →
      plo.1 ≤ x → x ≤ phi.1 → ∀ attr, interpolate_lookup x (p :: rest) attr =
        plo.2 attr + (x - plo.1) / (phi.1 - plo.1) * (phi.2 attr - plo.2 attr)) ∧
    interpolate_lookup 50 exampleTable "a" = 5 ∧
    interpolate_lookup 25 exampleTable "a" = 5 / 2 := by
  refine ⟨bracket_exists rest p hs hlo hhi, ?_, ?_, ?_⟩
  · intro l1 plo phi l2 heq h1 h2 attr
    rw [heq] at hs ⊢
    exact interp_bracket l1 plo phi l2 hs h1 h2 attr
  · norm_num [exampleTable, interpolate_lookup, findBracket, lerpResp, List.getLastD]
  · norm_num [exampleTable, interpolate_lookup, findBracket, lerpResp, List.getLastD]

theorem claim_C2_witness :
    sortedKeys exampleTable ∧ ((0:ℚ), (fun _ => 0 : Resp)).1 < 50 ∧
    ((50:ℚ) < (([((100:ℚ), (fun a => if a = "a" then 10 else 0 : Resp))] : Pts).getLastD
      (0, (fun _ => 0 : Resp))).1) ∧
    interpolate_lookup 50 exampleTable "a" = 5 :=
  ⟨by decide, by decide, by decide,
   (claim_C2 (0, fun _ => 0) [(100, fun a => if a = "a" then 10 else 0)]
      (by decide) 50 (by decide) (by decide)).2.2.1⟩

/-- C8: interpolated values are continuous across control points: at an input equal
to a control-point key, interpolate_lookup returns exactly the stored response at
that key, and the interior interpolation formula for any bracketing segment
evaluates at the segment endpoints to the stored endpoint responses, so the
expressions on either side of a knot agree there. -/
theorem claim_C8 (pts : Pts) (hs : sortedKeys pts) (k : ℚ) (r : Resp)
    (hmem : (k, r) ∈ pts) :
    (∀ attr, interpolate_lookup k pts attr = r attr) ∧
    (∀ (l1 : Pts) (plo phi : ℚ × Resp) (l2 : Pts), pts = l1 ++ plo :: phi :: l2 → ∀ attr,
      plo.2 attr + (phi.1 - plo.1) / (phi.1 - plo.1) * (phi.2 attr - plo.2 attr) =
        phi.2 attr ∧
      plo.2 attr + (plo.1 - plo.1) / (phi.1 - plo.1) * (phi.2 attr - plo.2 attr) =
        plo.2 attr) := by
  constructor
  · exact interp_at_key hs hmem
  · intro l1 plo phi l2 heq attr
    have hs2 : sortedKeys (plo :: phi :: l2) := sortedKeys_append_right (heq ▸ hs)
    have hlt : plo.1 < phi.1 := hs2.1
    have hne : phi.1 - plo.1 ≠ 0 := ne_of_gt (sub_pos.mpr hlt)
    constructor
    · rw [div_self hne]; ring
    · simp

theorem claim_C8_witness :
    sortedKeys SMBS_LOOKUP ∧ ((100:ℚ), smbsRow 98 58 35 25) ∈ SMBS_LOOKUP ∧
    ∀ attr, interpolate_lookup 100 SMBS_LOOKUP attr = smbsRow 98 58 35 25 attr :=
  ⟨by decide, by simp [SMBS_LOOKUP],
   (claim_C8 SMBS_LOOKUP (by decide) 100 (smbsRow 98 58 35 25) (by simp [SMBS_LOOKUP])).1⟩

/-- C9: interpolation never overshoots the authored data: for a sorted nonempty
table, any bracketing pair found by the scan yields a weight in [0,1], and the
interpolated value of an attribute lies between any bounds that enclose that
attribute at every control point. -/
theorem claim_C9 (pts : Pts) (hs : sortedKeys pts) (hne : pts ≠ []) (v : ℚ)
    (attr : String) (lo hi : ℚ) (hb : ∀ p ∈ pts, lo ≤ p.2 attr ∧ p.2 attr ≤ hi) :
    (∀ plo phi : ℚ × Resp, findBracket v pts = some (plo, phi) →
      0 ≤ (v - plo.1) / (phi.1 - plo.1) ∧ (v - plo.1) / (phi.1 - plo.1) ≤ 1) ∧
    lo ≤ interpolate_lookup v pts attr ∧ interpolate_lookup v pts attr ≤ hi := by
  constructor
  · intro plo phi hfb
    obtain ⟨h1, h2, hlt⟩ := findBracket_spec hs hfb
    have hd : (0:ℚ) < phi.1 - plo.1 := sub_pos.mpr hlt
    exact ⟨div_nonneg (by linarith) (le_of_lt hd), (div_le_one hd).mpr (by linarith)⟩
  · exact interp_bounds hs hne hb v

theorem claim_C9_witness :
    sortedKeys SMBS_LOOKUP ∧ SMBS_LOOKUP ≠ [] ∧
    (∀ p ∈ SMBS_LOOKUP, 85 ≤ p.2 "recovery" ∧ p.2 "recovery" ≤ 100) ∧
    (85 ≤ interpolate_lookup 120 SMBS_LOOKUP "recovery" ∧
     interpolate_lookup 120 SMBS_LOOKUP "recovery" ≤ 100) :=
  ⟨by decide, by simp [SMBS_LOOKUP], by decide,
   (claim_C9 SMBS_LOOKUP (by decide) (by simp [SMBS_LOOKUP]) 120 "recovery" 85 100
      (by decide)).2⟩

/-- C3: the recovery output of calculate_performance is, before the final clamp
to [0,100], exactly (0.55*collector recovery + 0.25*air recovery +
0.20*smbs recovery + 0.10*65) * ph recovery multiplier + luproset recovery
effect, each component interpolated from its fixed table at the given input. -/
theorem claim_C3 (collector air_rate smbs ph luproset fe cb zn : ℚ) :
    (calculate_performance collector air_rate smbs ph luproset fe cb zn).1 =
      max 0 (min 100
        ((0.55 * interpolate_lookup collector COLLECTOR_LOOKUP "recovery" +
          0.25 * interpolate_lookup air_rate AIR_RATE_LOOKUP "recovery" +
          0.20 * interpolate_lookup smbs SMBS_LOOKUP "recovery" +
          0.10 * 65.0) *
          interpolate_lookup ph PH_LOOKUP "recovery_multiplier" +
          interpolate_lookup luproset LUPROSET_LOOKUP "recovery_effect")) := by
  rw [calc_perf_unfold]
  dsimp only
  congr 2
  ring

/-- C6: calculate_performance uses the basic depression-only iron model: the iron
grade before clamping is fe_feed_grade * (1 - smbs iron rejection / 100), with no
collector or air-rate activation terms, and the upper clamp is min with
fe_feed_grade itself, the K_fe = 1.0 variant. -/
theorem claim_C6 (collector air_rate smbs ph luproset fe cb zn : ℚ) :
    (calculate_performance collector air_rate smbs ph luproset fe cb zn).2.2.1 =
      max 0.1 (min fe
        (fe * (1 - interpolate_lookup smbs SMBS_LOOKUP "iron_rejection" / 100))) := by
  rw [calc_perf_unfold]
  norm_num

/-- C4: for inputs in the documented valid ranges, the five outputs satisfy the
clamp bounds: recovery in [0,100], lead grade in [35,75], iron grade in
[0.1, fe_feed_grade], carbon grade in [0.1, carbon_feed_grade*4], zinc grade in
[0.01, zn_feed_grade*2]. -/
theorem claim_C4 (collector air_rate smbs ph luproset fe cb zn : ℚ)
    (hc1 : 0 ≤ collector) (hc2 : collector ≤ 150)
    (ha1 : 0 ≤ air_rate) (ha2 : air_rate ≤ 100)
    (hs1 : 0 ≤ smbs) (hs2 : smbs ≤ 300)
    (hp1 : 7 ≤ ph) (hp2 : ph ≤ 10)
    (hl1 : 0 ≤ luproset) (hl2 : luproset ≤ 500)
    (hf1 : 8 ≤ fe) (hf2 : fe ≤ 13)
    (hz1 : 8 ≤ zn) (hz2 : zn ≤ 13)
    (hb1 : 3 ≤ cb) (hb2 : cb ≤ 6) :
    (0 ≤ (calculate_performance collector air_rate smbs ph luproset fe cb zn).1 ∧
     (calculate_performance collector air_rate smbs ph luproset fe cb zn).1 ≤ 100) ∧
    (35 ≤ (calculate_performance collector air_rate smbs ph luproset fe cb zn).2.1 ∧
     (calculate_performance collector air_rate smbs ph luproset fe cb zn).2.1 ≤ 75) ∧
    (0.1 ≤ (calculate_performance collector air_rate smbs ph luproset fe cb zn).2.2.1 ∧
     (calculate_performance collector air_rate smbs ph luproset fe cb zn).2.2.1 ≤ fe) ∧
    (0.1 ≤ (calculate_performance collector air_rate smbs ph luproset fe cb zn).2.2.2.1 ∧
     (calculate_performance collector air_rate smbs ph luproset fe cb zn).2.2.2.1 ≤ cb * 4) ∧
    (0.01 ≤ (calculate_performance collector air_rate smbs ph luproset fe cb zn).2.2.2.2 ∧
     (calculate_performance collector air_rate smbs ph luproset fe cb zn).2.2.2.2 ≤ zn * 2) := by
  rw [calc_perf_unfold]
  dsimp only
  refine ⟨⟨le_max_left _ _, max_le (by norm_num) (min_le_left _ _)⟩,
    ⟨le_max_left _ _, max_le (by norm_num) (min_le_left _ _)⟩,
    ⟨le_max_left _ _, max_le (by linarith) (min_le_left _ _)⟩,
    ⟨le_max_left _ _, max_le (by linarith) (min_le_left _ _)⟩,
    ⟨le_max_left _ _, max_le (by linarith) (min_le_left _ _)⟩⟩

theorem claim_C4_witness :
    ((0:ℚ) ≤ 0 ∧ (0:ℚ) ≤ 150 ∧ (0:ℚ) ≤ 100 ∧ (0:ℚ) ≤ 300 ∧
     (7:ℚ) ≤ 8 ∧ (8:ℚ) ≤ 10 ∧ (0:ℚ) ≤ 500 ∧
     (8:ℚ) ≤ 11 ∧ (11:ℚ) ≤ 13 ∧ (8:ℚ) ≤ 10 ∧ (10:ℚ) ≤ 13 ∧ (3:ℚ) ≤ 4 ∧ (4:ℚ) ≤ 6) ∧
    (0 ≤ (calculate_performance 0 0 0 8 0 11 4 10).1 ∧
     (calculate_performance 0 0 0 8 0 11 4 10).1 ≤ 100) ∧
    (35 ≤ (calculate_performance 0 0 0 8 0 11 4 10).2.1 ∧
     (calculate_performance 0 0 0 8 0 11 4 10).2.1 ≤ 75) :=
  ⟨by norm_num,
   ((claim_C4 0 0 0 8 0 11 4 10 (by norm_num) (by norm_num) (by norm_num) (by norm_num)
      (by norm_num) (by norm_num) (by norm_num) (by norm_num) (by norm_num) (by norm_num)
      (by norm_num) (by norm_num) (by norm_num) (by norm_num) (by norm_num)
      (by norm_num)).1),
   ((claim_C4 0 0 0 8 0 11 4 10 (by norm_num) (by norm_num) (by norm_num) (by norm_num)
      (by norm_num) (by norm_num) (by norm_num) (by norm_num) (by norm_num) (by norm_num)
      (by norm_num) (by norm_num) (by norm_num) (by norm_num) (by norm_num)
      (by norm_num)).2.1)⟩

/-- C5 counterexample: at the baseline input the recovery is exactly 34.5 and the
lead grade exactly 47.7, which differ from the claimed approximate values 33.5
and 42.2 by 1 and 5.5 respectively. -/
theorem claim_C5_counterexample :
    (calculate_performance 0 0 0 7.5 0 11 4.5 10.5).1 = 69 / 2 ∧
    (calculate_performance 0 0 0 7.5 0 11 4.5 10.5).2.1 = 477 / 10 ∧
    (69:ℚ) / 2 - 33.5 = 1 ∧ (477:ℚ) / 10 - 42.2 = 11 / 2 := by
  refine ⟨?_, ?_, by norm_num, by norm_num⟩ <;>
    norm_num +decide [calculate_performance, interpolate_lookup, findBracket, lerpResp,
      COLLECTOR_LOOKUP, AIR_RATE_LOOKUP, SMBS_LOOKUP, PH_LOOKUP, LUPROSET_LOOKUP,
      collectorRow, airRow, smbsRow, phRow, luprosetRow]

/-- C5 (amended): at the baseline input the recovery equals exactly 34.5, which is
(0.55*10 + 0.25*10 + 0.20*100 + 0.10*65) with pH multiplier 1.0 and Luproset
effect 0, and the lead grade equals exactly 47.7, which is
0.50*45 + 0.25*35 + 0.25*45 + 0.10*52 with grade bonus 0, inside [35,75]. -/
theorem claim_C5 :
    (calculate_performance 0 0 0 7.5 0 11 4.5 10.5).1 = 69 / 2 ∧
    (calculate_performance 0 0 0 7.5 0 11 4.5 10.5).2.1 = 477 / 10 ∧
    (69:ℚ) / 2 = (0.55 * 10 + 0.25 * 10 + 0.20 * 100 + 0.10 * 65) * 1 + 0 ∧
    (477:ℚ) / 10 = 0.50 * 45 + 0.25 * 35 + 0.25 * 45 + 0.10 * 52 + 0 ∧
    (35:ℚ) ≤ 477 / 10 ∧ (477:ℚ) / 10 ≤ 75 := by
  refine ⟨?_, ?_, by norm_num, by norm_num, by norm_num, by norm_num⟩ <;>
    norm_num +decide [calculate_performance, interpolate_lookup, findBracket, lerpResp,
      COLLECTOR_LOOKUP, AIR_RATE_LOOKUP, SMBS_LOOKUP, PH_LOOKUP, LUPROSET_LOOKUP,
      collectorRow, airRow, smbsRow, phRow, luprosetRow]

/-- C7: for any fixed values of the other seven inputs, both the recovery output
and the zinc-grade output of calculate_performance are non-increasing in the
SMBS input over [0, 300]. -/
theorem claim_C7 (collector air_rate ph luproset fe cb zn s1 s2 : ℚ)
    (h0 : 0 ≤ s1) (h12 : s1 ≤ s2) (h300 : s2 ≤ 300) :
    (calculate_performance collector air_rate s2 ph luproset fe cb zn).1 ≤
      (calculate_performance collector air_rate s1 ph luproset fe cb zn).1 ∧
    (calculate_performance collector air_rate s2 ph luproset fe cb zn).2.2.2.2 ≤
      (calculate_performance collector air_rate s1 ph luproset fe cb zn).2.2.2.2 := by
  have hsorted : sortedKeys SMBS_LOOKUP := by decide
  have hrecA : attrAntitone "recovery" SMBS_LOOKUP := by decide
  have hdepM : attrMonotone "zn_depression" SMBS_LOOKUP := by decide
  have hne : SMBS_LOOKUP ≠ [] := by simp [SMBS_LOOKUP]
  have hrec12 : interpolate_lookup s2 SMBS_LOOKUP "recovery" ≤
      interpolate_lookup s1 SMBS_LOOKUP "recovery" := interp_antitone hsorted hrecA h12
  have hdep12 : interpolate_lookup s1 SMBS_LOOKUP "zn_depression" ≤
      interpolate_lookup s2 SMBS_LOOKUP "zn_depression" := interp_monotone hsorted hdepM h12
  have hdepB1 : 0 ≤ interpolate_lookup s1 SMBS_LOOKUP "zn_depression" ∧
      interpolate_lookup s1 SMBS_LOOKUP "zn_depression" ≤ 70 :=
    interp_bounds hsorted hne (by decide) s1
  have hdepB2 : 0 ≤ interpolate_lookup s2 SMBS_LOOKUP "zn_depression" ∧
      interpolate_lookup s2 SMBS_LOOKUP "zn_depression" ≤ 70 :=
    interp_bounds hsorted hne (by decide) s2
  have hsortedPH : sortedKeys PH_LOOKUP := by norm_num [sortedKeys, PH_LOOKUP]
  have hmultB : 0 ≤ interpolate_lookup ph PH_LOOKUP "recovery_multiplier" ∧
      interpolate_lookup ph PH_LOOKUP "recovery_multiplier" ≤ 1 :=
    interp_bounds hsortedPH (by simp [PH_LOOKUP])
      (by norm_num [PH_LOOKUP, phRow, List.forall_mem_cons]) ph
  rw [calc_perf_unfold collector air_rate s2 ph luproset fe cb zn,
    calc_perf_unfold collector air_rate s1 ph luproset fe cb zn]
  dsimp only
  constructor
  · refine max_le_max (le_refl 0) (min_le_min (le_refl 100) ?_)
    nlinarith [mul_nonneg (sub_nonneg.mpr hrec12) hmultB.1]
  · rcases le_or_lt 0
        ((interpolate_lookup collector COLLECTOR_LOOKUP "zn_activation" +
          interpolate_lookup air_rate AIR_RATE_LOOKUP "zn_flotation") * zn *
          interpolate_lookup ph PH_LOOKUP "zn_selectivity") with hW | hW
    · refine max_le_max (le_refl _) (min_le_min (le_refl _) ?_)
      exact mul_le_mul_of_nonneg_left (by linarith) hW
    · have hz1 : (interpolate_lookup collector COLLECTOR_LOOKUP "zn_activation" +
          interpolate_lookup air_rate AIR_RATE_LOOKUP "zn_flotation") * zn *
          interpolate_lookup ph PH_LOOKUP "zn_selectivity" *
          (1.0 - interpolate_lookup s1 SMBS_LOOKUP "zn_depression" / 100.0) ≤ 0 := by
        nlinarith [hdepB1.2, hdepB1.1]
      have hz2 : (interpolate_lookup collector COLLECTOR_LOOKUP "zn_activation" +
          interpolate_lookup air_rate AIR_RATE_LOOKUP "zn_flotation") * zn *
          interpolate_lookup ph PH_LOOKUP "zn_selectivity" *
          (1.0 - interpolate_lookup s2 SMBS_LOOKUP "zn_depression" / 100.0) ≤ 0 := by
        nlinarith [hdepB2.2, hdepB2.1]
      rw [max_eq_left (le_trans (min_le_right _ _) (by linarith)),
        max_eq_left (le_trans (min_le_right _ _) (by linarith))]

theorem claim_C7_witness :
    (0:ℚ) ≤ 50 ∧ (50:ℚ) ≤ 150 ∧ (150:ℚ) ≤ 300 ∧
    ((calculate_performance 0 0 150 8 0 11 4 10).1 ≤
      (calculate_performance 0 0 50 8 0 11 4 10).1 ∧
     (calculate_performance 0 0 150 8 0 11 4 10).2.2.2.2 ≤
      (calculate_performance 0 0 50 8 0 11 4 10).2.2.2.2) :=
  ⟨by norm_num, by norm_num, by norm_num,
   claim_C7 0 0 8 0 11 4 10 50 150 (by norm_num) (by norm_num) (by norm_num)⟩

set_option maxHeartbeats 1600000 in
/-- C10: with the five fixed tables, the recovery and lead-grade clamps are
no-ops: for every input the unclamped recovery lies in [17.05, 86.5], inside
[0,100], and the unclamped lead grade lies in [36.95, 66.7], inside [35,75],
so the returned recovery and grade equal the unclamped values. -/
theorem claim_C10 (collector air_rate smbs ph luproset fe cb zn : ℚ) :
    (1705 / 100 ≤ recovery_pre collector air_rate smbs ph luproset ∧
     recovery_pre collector air_rate smbs ph luproset ≤ 865 / 10) ∧
    (3695 / 100 ≤ grade_pre collector air_rate smbs ph ∧
     grade_pre collector air_rate smbs ph ≤ 667 / 10) ∧
    max 0 (min 100 (recovery_pre collector air_rate smbs ph luproset)) =
      recovery_pre collector air_rate smbs ph luproset ∧
    max 35 (min 75 (grade_pre collector air_rate smbs ph)) =
      grade_pre collector air_rate smbs ph ∧
    (calculate_performance collector air_rate smbs ph luproset fe cb zn).1 =
      recovery_pre collector air_rate smbs ph luproset ∧
    (calculate_performance collector air_rate smbs ph luproset fe cb zn).2.1 =
      grade_pre collector air_rate smbs ph := by
  have hneC : COLLECTOR_LOOKUP ≠ [] := by simp [COLLECTOR_LOOKUP]
  have hneA : AIR_RATE_LOOKUP ≠ [] := by simp [AIR_RATE_LOOKUP]
  have hneS : SMBS_LOOKUP ≠ [] := by simp [SMBS_LOOKUP]
  have hneP : PH_LOOKUP ≠ [] := by simp [PH_LOOKUP]
  have hneL : LUPROSET_LOOKUP ≠ [] := by simp [LUPROSET_LOOKUP]
  have hsC : sortedKeys COLLECTOR_LOOKUP := by decide
  have hsA : sortedKeys AIR_RATE_LOOKUP := by decide
  have hsS : sortedKeys SMBS_LOOKUP := by decide
  have hsP : sortedKeys PH_LOOKUP := by norm_num [sortedKeys, PH_LOOKUP]
  have hsL : sortedKeys LUPROSET_LOOKUP := by decide
  have hCrec : 10 ≤ interpolate_lookup collector COLLECTOR_LOOKUP "recovery" ∧
      interpolate_lookup collector COLLECTOR_LOOKUP "recovery" ≤ 75 :=
    interp_bounds hsC hneC (by decide) collector
  have hArec : 10 ≤ interpolate_lookup air_rate AIR_RATE_LOOKUP "recovery" ∧
      interpolate_lookup air_rate AIR_RATE_LOOKUP "recovery" ≤ 75 :=
    interp_bounds hsA hneA (by decide) air_rate
  have hSrec : 85 ≤ interpolate_lookup smbs SMBS_LOOKUP "recovery" ∧
      interpolate_lookup smbs SMBS_LOOKUP "recovery" ≤ 100 :=
    interp_bounds hsS hneS (by decide) smbs
  have hMult : 7 / 10 ≤ interpolate_lookup ph PH_LOOKUP "recovery_multiplier" ∧
      interpolate_lookup ph PH_LOOKUP "recovery_multiplier" ≤ 1 :=
    interp_bounds hsP hneP (by norm_num [PH_LOOKUP, phRow, List.forall_mem_cons]) ph
  have hEff : -5 ≤ interpolate_lookup luproset LUPROSET_LOOKUP "recovery_effect" ∧
      interpolate_lookup luproset LUPROSET_LOOKUP "recovery_effect" ≤ 0 :=
    interp_bounds hsL hneL
      (by norm_num [LUPROSET_LOOKUP, luprosetRow, List.forall_mem_cons,
        show ("recovery_effect":String) ≠ "carbon_rejection" from by decide]) luproset
  have hCgr : 30 ≤ interpolate_lookup collector COLLECTOR_LOOKUP "grade" ∧
      interpolate_lookup collector COLLECTOR_LOOKUP "grade" ≤ 55 :=
    interp_bounds hsC hneC (by decide) collector
  have hAgr : 30 ≤ interpolate_lookup air_rate AIR_RATE_LOOKUP "grade" ∧
      interpolate_lookup air_rate AIR_RATE_LOOKUP "grade" ≤ 52 :=
    interp_bounds hsA hneA (by decide) air_rate
  have hSgr : 45 ≤ interpolate_lookup smbs SMBS_LOOKUP "grade" ∧
      interpolate_lookup smbs SMBS_LOOKUP "grade" ≤ 68 :=
    interp_bounds hsS hneS (by decide) smbs
  have hBonus : -2 ≤ interpolate_lookup ph PH_LOOKUP "grade_bonus" ∧
      interpolate_lookup ph PH_LOOKUP "grade_bonus" ≤ 4 :=
    interp_bounds hsP hneP (by norm_num [PH_LOOKUP, phRow, List.forall_mem_cons,
      show ("grade_bonus":String) ≠ "recovery_multiplier" from by decide]) ph
  have hR1 : 1705 / 100 ≤ recovery_pre collector air_rate smbs ph luproset := by
    simp only [recovery_pre]
    nlinarith [mul_nonneg
      (by linarith [hCrec.1, hArec.1, hSrec.1] :
        (0:ℚ) ≤ interpolate_lookup collector COLLECTOR_LOOKUP "recovery" * 0.55 +
          interpolate_lookup air_rate AIR_RATE_LOOKUP "recovery" * 0.25 +
          interpolate_lookup smbs SMBS_LOOKUP "recovery" * 0.20 + 65.0 * 0.10 - 63 / 2)
      (by linarith [hMult.1] :
        (0:ℚ) ≤ interpolate_lookup ph PH_LOOKUP "recovery_multiplier" - 7 / 10)]
  have hR2 : recovery_pre collector air_rate smbs ph luproset ≤ 865 / 10 := by
    simp only [recovery_pre]
    nlinarith [mul_nonneg
      (by linarith [hCrec.2, hArec.2, hSrec.2] :
        (0:ℚ) ≤ 173 / 2 - (interpolate_lookup collector COLLECTOR_LOOKUP "recovery" * 0.55 +
          interpolate_lookup air_rate AIR_RATE_LOOKUP "recovery" * 0.25 +
          interpolate_lookup smbs SMBS_LOOKUP "recovery" * 0.20 + 65.0 * 0.10))
      (by linarith [hMult.1] :
        (0:ℚ) ≤ interpolate_lookup ph PH_LOOKUP "recovery_multiplier" - 7 / 10)]
  have hG1 : 3695 / 100 ≤ grade_pre collector air_rate smbs ph := by
    simp only [grade_pre]
    nlinarith [hCgr.1, hAgr.1, hSgr.1, hBonus.1]
  have hG2 : grade_pre collector air_rate smbs ph ≤ 667 / 10 := by
    simp only [grade_pre]
    nlinarith [hCgr.2, hAgr.2, hSgr.2, hBonus.2]
  have hclampR : max 0 (min 100 (recovery_pre collector air_rate smbs ph luproset)) =
      recovery_pre collector air_rate smbs ph luproset := by
    rw [min_eq_right (by linarith), max_eq_right (by linarith)]
  have hclampG : max 35 (min 75 (grade_pre collector air_rate smbs ph)) =
      grade_pre collector air_rate smbs ph := by
    have ha : grade_pre collector air_rate smbs ph ≤ 75 := by linarith
    have hb : (35:ℚ) ≤ grade_pre collector air_rate smbs ph := by linarith
    rw [min_eq_right ha, max_eq_right hb]
  have houtR : (calculate_performance collector air_rate smbs ph luproset fe cb zn).1 =
      recovery_pre collector air_rate smbs ph luproset := by
    rw [calc_perf_unfold]
    dsimp only
    rw [← hclampR]
    simp only [recovery_pre]
  have houtG : (calculate_performance collector air_rate smbs ph luproset fe cb zn).2.1 =
      grade_pre collector air_rate smbs ph := by
    rw [calc_perf_unfold]
    dsimp only
    rw [← hclampG]
    simp only [grade_pre]
  exact ⟨⟨hR1, hR2⟩, ⟨hG1, hG2⟩, hclampR, hclampG, houtR, houtG⟩

end PbFlot
